import Mathlib

/-!
Shallow embedding of the metrics engine of `src/main.py`
(`SimpleInvestmentAnalyzer.calculate_metrics` / `generate_report`).

The engine works on pandas float64 series.  Floating-point values are
modelled by the type `FP`: a finite value carries an exact rational, and
the special values `inf b` (`b = true` for +inf) and `nan` reproduce the
IEEE-754 propagation rules that pandas/NumPy follow for the operations the
engine uses (arithmetic, comparisons, NaN-skipping mean and sample
standard deviation, rolling means).  `np.sqrt` is modelled by `ratSqrt`,
a rational stand-in that is exact whenever the argument is the square of
a rational number (every square root the development evaluates is of
that form: 0, or a perfect square).
-/

/-- A pandas/NumPy float64 value: a finite rational, a signed infinity
(`true` = positive), or NaN. -/
inductive FP where
  | num : ℚ → FP
  | inf : Bool → FP
  | nan : FP
deriving DecidableEq, Repr

/-- IEEE-754 negation on the model. -/
def fpNeg : FP → FP
  | FP.num q => FP.num (-q)
  | FP.inf s => FP.inf (!s)
  | FP.nan => FP.nan

/-- IEEE-754 addition: NaN absorbs, opposite infinities give NaN. -/
def fpAdd : FP → FP → FP
  | FP.nan, _ => FP.nan
  | _, FP.nan => FP.nan
  | FP.num q, FP.num r => FP.num (q + r)
  | FP.num _, FP.inf s => FP.inf s
  | FP.inf s, FP.num _ => FP.inf s
  | FP.inf s, FP.inf t => if s = t then FP.inf s else FP.nan

/-- IEEE-754 subtraction. -/
def fpSub (a b : FP) : FP := fpAdd a (fpNeg b)

/-- IEEE-754 multiplication: NaN absorbs, `0 * inf = NaN`, signs combine. -/
def fpMul : FP → FP → FP
  | FP.nan, _ => FP.nan
  | _, FP.nan => FP.nan
  | FP.num q, FP.num r => FP.num (q * r)
  | FP.num q, FP.inf s => if q = 0 then FP.nan else FP.inf (s = decide (0 < q))
  | FP.inf s, FP.num q => if q = 0 then FP.nan else FP.inf (s = decide (0 < q))
  | FP.inf s, FP.inf t => FP.inf (s = t)

/-- IEEE-754 division: NaN absorbs, `0/0 = NaN`, `q/0 = ±inf` for `q ≠ 0`,
finite over infinite is 0, infinite over infinite is NaN. -/
def fpDiv : FP → FP → FP
  | FP.nan, _ => FP.nan
  | _, FP.nan => FP.nan
  | FP.num q, FP.num r =>
      if r = 0 then (if q = 0 then FP.nan else FP.inf (decide (0 < q)))
      else FP.num (q / r)
  | FP.num _, FP.inf _ => FP.num 0
  | FP.inf s, FP.num r => FP.inf (s = decide (0 ≤ r))
  | FP.inf _, FP.inf _ => FP.nan

/-- IEEE-754 strict greater-than: any comparison with NaN is false. -/
def fpGt : FP → FP → Bool
  | FP.nan, _ => false
  | _, FP.nan => false
  | FP.num q, FP.num r => decide (r < q)
  | FP.inf s, FP.num _ => s
  | FP.num _, FP.inf s => !s
  | FP.inf s, FP.inf t => s && !t

/-- IEEE-754 less-or-equal: any comparison with NaN is false. -/
def fpLe : FP → FP → Bool
  | FP.nan, _ => false
  | _, FP.nan => false
  | FP.num q, FP.num r => decide (q ≤ r)
  | FP.inf s, FP.num _ => !s
  | FP.num _, FP.inf t => t
  | FP.inf s, FP.inf t => !s || t

/-- Is this value NaN? -/
def FP.isNaN : FP → Bool
  | FP.nan => true
  | _ => false

/-- Rational stand-in for float `sqrt` on a nonnegative rational: exact
whenever the argument is the square of a rational (numerator and
denominator of the reduced form both perfect squares), an approximation
otherwise, just as float sqrt is. -/
def ratSqrt (q : ℚ) : ℚ :=
  (Nat.sqrt q.num.toNat : ℚ) / (Nat.sqrt q.den : ℚ)

/-- Float `np.sqrt` on the model: NaN for negative finite and for -inf. -/
def fpSqrt : FP → FP
  | FP.nan => FP.nan
  | FP.inf s => if s then FP.inf true else FP.nan
  | FP.num q => if q < 0 then FP.nan else FP.num (ratSqrt q)

/-- Sum of a float series, folded left from 0 as NumPy accumulates. -/
def fpSumList (l : List FP) : FP := l.foldl fpAdd (FP.num 0)

/-- The non-NaN entries of a series (pandas `skipna=True` filtering). -/
def skipna (l : List FP) : List FP := l.filter (fun x => ! x.isNaN)

/-- pandas `Series.mean()`: mean over the non-NaN entries, NaN when there
are none. -/
def seriesMean (l : List FP) : FP :=
  let v := skipna l
  if v.length = 0 then FP.nan
  else fpDiv (fpSumList v) (FP.num (v.length : ℚ))

/-- pandas `Series.std()` (ddof = 1, skipna): sample standard deviation of
the non-NaN entries, NaN when fewer than two remain. -/
def seriesStd (l : List FP) : FP :=
  let v := skipna l
  if v.length < 2 then FP.nan
  else
    let m := seriesMean l
    fpSqrt (fpDiv (fpSumList (v.map (fun x => fpMul (fpSub x m) (fpSub x m))))
      (FP.num ((v.length - 1 : ℕ) : ℚ)))

/-- pandas `Series.pct_change()` on the close column: NaN at index 0, then
`(close[i] - close[i-1]) / close[i-1]` with float division semantics. -/
def pctChange (closes : List ℚ) : List FP :=
  match closes with
  | [] => []
  | _ :: _ =>
      FP.nan ::
        List.zipWith (fun prev cur => fpDiv (FP.num (cur - prev)) (FP.num prev))
          closes closes.tail

/-- The trailing window of width `w` ending at index `i` (pandas rolling
window contents at position `i`). -/
def windowSlice (w i : ℕ) (xs : List ℚ) : List ℚ :=
  (xs.take (i + 1)).drop (i + 1 - w)

/-- pandas `Series.rolling(window=w).mean()`: NaN while fewer than `w`
observations exist, else the mean of the trailing `w`-window. -/
def rollingMean (w : ℕ) (xs : List ℚ) : List FP :=
  (List.range xs.length).map (fun i =>
    if i + 1 < w then FP.nan
    else FP.num ((windowSlice w i xs).sum / ((windowSlice w i xs).length : ℚ)))

/-- pandas `Series.iloc[-1]` on a float series; only used on nonempty
series, the default is unreachable there. -/
def ilocLast (l : List FP) : FP := l.getLast?.getD FP.nan

/-- `Series.iloc[-1]` on the close column; only used on nonempty series. -/
def ilocLastQ (l : List ℚ) : ℚ := l.getLast?.getD 0

/-- The metrics record built by `calculate_metrics` (`src/main.py`
lines 84-110), fields in assignment order. -/
structure SeriesMetrics where
  avg_daily_return : FP
  annualized_return : FP
  volatility : FP
  sharpe_ratio : FP
  current_price : FP
  ma50 : FP
  ma200 : FP
  trend : String
deriving DecidableEq, Repr

/-- The metrics computation on a nonempty close series (`src/main.py`
lines 83-111): daily returns by `pct_change`, mean/std annualised with
the 252 trading-day convention, Sharpe ratio as their quotient, rolling
50/200-day means, and the `ma50 > ma200` trend test (NaN comparisons
are false, falling to Bearish). -/
def computeMetrics (closes : List ℚ) : SeriesMetrics :=
  let dailyReturn := pctChange closes
  let avg := seriesMean dailyReturn
  let ann := fpMul avg (FP.num 252)
  let vol := fpMul (seriesStd dailyReturn) (FP.num (ratSqrt 252))
  let ma50v := ilocLast (rollingMean 50 closes)
  let ma200v := ilocLast (rollingMean 200 closes)
  { avg_daily_return := avg
    annualized_return := ann
    volatility := vol
    sharpe_ratio := fpDiv ann vol
    current_price := FP.num (ilocLastQ closes)
    ma50 := ma50v
    ma200 := ma200v
    trend := if fpGt ma50v ma200v then "Bullish" else "Bearish" }

/-- `calculate_metrics` restricted to one ticker's bar sequence: the
empty-data guard (`src/main.py` line 79) followed by the computation. -/
def metricsForSeries (closes : List ℚ) : Option SeriesMetrics :=
  if closes.isEmpty then none else some (computeMetrics closes)

/-- `SimpleInvestmentAnalyzer.calculate_metrics(ticker)`: returns `None`
when the ticker is absent from `self.data` or its frame is empty. -/
def calculate_metrics (data : List (String × List ℚ)) (ticker : String) :
    Option SeriesMetrics :=
  match List.lookup ticker data with
  | none => none
  | some closes => metricsForSeries closes

/-- The recommendation chain of `generate_report` (`src/main.py`
lines 160-167), a function of the trend string and the Sharpe ratio. -/
def recommend (trend : String) (sharpe : FP) : String :=
  if trend = "Bullish" && fpGt sharpe (FP.num 1) then
    "Consider Buying: Positive trend with good risk-adjusted returns"
  else if trend = "Bullish" && fpLe sharpe (FP.num 1) then
    "Hold/Watch: Positive trend but lower risk-adjusted returns"
  else if trend = "Bearish" && fpGt sharpe (FP.num (1/2)) then
    "Hold with Caution: Negative trend but still some positive risk-adjusted returns"
  else
    "Consider Selling/Avoiding: Negative trend with poor risk-adjusted returns"

/-- The report record assembled by `generate_report` (`src/main.py`
lines 148-169). -/
structure Report where
  ticker : String
  current_price : FP
  ma50 : FP
  ma200 : FP
  trend : String
  annualized_return : FP
  volatility : FP
  sharpe_ratio : FP
  recommendation : String
deriving DecidableEq, Repr

/-- `SimpleInvestmentAnalyzer.generate_report(ticker)`: `None` when
`calculate_metrics` signalled no data, else the packaged report. -/
def generate_report (data : List (String × List ℚ)) (ticker : String) :
    Option Report :=
  match calculate_metrics data ticker with
  | none => none
  | some m =>
      some { ticker := ticker
             current_price := m.current_price
             ma50 := m.ma50
             ma200 := m.ma200
             trend := m.trend
             annualized_return := m.annualized_return
             volatility := m.volatility
             sharpe_ratio := SeriesMetrics.sharpe_ratio m
             recommendation := recommend m.trend (SeriesMetrics.sharpe_ratio m) }

/-- The per-ticker report loop of the example driver and test script:
each ticker is processed independently. -/
def processBatch (data : List (String × List ℚ)) (tickers : List String) :
    List (String × Option Report) :=
  tickers.map (fun t => (t, generate_report data t))

/-- The daily-return formula as the specification states it, index by
index: `(close[i] - close[i-1]) / close[i-1]` as exact rationals.  Stated
for comparison with the engine's `pctChange`. -/
def specDailyReturns (closes : List ℚ) : List ℚ :=
  List.zipWith (fun prev cur => (cur - prev) / prev) closes closes.tail

/-- A monotonically increasing linear close series: `close[i] = a + d·i`. -/
def linClose (n : ℕ) (a d : ℚ) : List ℚ :=
  (List.range n).map (fun i : ℕ => a + d * (i : ℚ))

/-! ## Algebraic facts about the float model -/

/-- Comparing any value with NaN by `>` is false. -/
theorem fpGt_nan_right (x : FP) : fpGt x FP.nan = false := by
  cases x <;> rfl

/-- On finite values `>` is the rational strict order. -/
theorem fpGt_num_num (a b : ℚ) : fpGt (FP.num a) (FP.num b) = decide (b < a) := rfl

/-- Addition of finite values is exact rational addition. -/
theorem fpAdd_num_num (a b : ℚ) : fpAdd (FP.num a) (FP.num b) = FP.num (a + b) := rfl

/-- Subtraction of finite values is exact rational subtraction. -/
theorem fpSub_num_num (a b : ℚ) : fpSub (FP.num a) (FP.num b) = FP.num (a - b) := by
  simp [fpSub, fpNeg, fpAdd, sub_eq_add_neg]

/-- Multiplication of finite values is exact rational multiplication. -/
theorem fpMul_num_num (a b : ℚ) : fpMul (FP.num a) (FP.num b) = FP.num (a * b) := rfl

/-- Division of finite values: exact rational division for a nonzero
divisor, NaN for `0/0`, a signed infinity for `q/0` with `q ≠ 0`. -/
theorem fpDiv_num_num (a b : ℚ) :
    fpDiv (FP.num a) (FP.num b) =
      if b = 0 then (if a = 0 then FP.nan else FP.inf (decide (0 < a)))
      else FP.num (a / b) := rfl

/-- Folding `fpAdd` over a finite series from a finite start stays exact. -/
theorem foldl_fpAdd_num (l : List ℚ) : ∀ a : ℚ,
    List.foldl fpAdd (FP.num a) (l.map FP.num) = FP.num (a + l.sum) := by
  induction l with
  | nil => intro a; simp
  | cons b t ih =>
      intro a
      simp only [List.map_cons, List.foldl_cons, fpAdd_num_num, ih, List.sum_cons]
      rw [add_assoc]

/-- The float sum of a series of finite values is the exact rational sum. -/
theorem fpSumList_map_num (l : List ℚ) : fpSumList (l.map FP.num) = FP.num l.sum := by
  rw [fpSumList, foldl_fpAdd_num]
  rw [zero_add]

/-- The float sum of a constant-zero series is zero. -/
theorem fpSumList_replicate_zero (k : ℕ) :
    fpSumList (List.replicate k (FP.num 0)) = FP.num 0 := by
  have h : List.replicate k (FP.num 0) = (List.replicate k (0:ℚ)).map FP.num := by
    simp [List.map_replicate]
  rw [h, fpSumList_map_num]
  simp

/-! ## NaN skipping, mean, pct_change -/

/-- A leading NaN is dropped by skipna filtering. -/
theorem skipna_nan_cons (xs : List FP) : skipna (FP.nan :: xs) = skipna xs := by
  simp [skipna, FP.isNaN]

/-- A series of finite values is untouched by skipna filtering. -/
theorem skipna_map_num (l : List ℚ) : skipna (l.map FP.num) = l.map FP.num := by
  rw [skipna, List.filter_eq_self]
  intro x hx
  obtain ⟨q, _, rfl⟩ := List.mem_map.mp hx
  rfl

/-- skipna on a NaN followed by finite values keeps exactly the finite part. -/
theorem skipna_nan_cons_num (l : List ℚ) :
    skipna (FP.nan :: l.map FP.num) = l.map FP.num := by
  rw [skipna_nan_cons, skipna_map_num]

/-- The pandas mean of a NaN followed by finite values is the exact
arithmetic mean of the finite part. -/
theorem seriesMean_nan_cons_num (l : List ℚ) (h : l ≠ []) :
    seriesMean (FP.nan :: l.map FP.num) = FP.num (l.sum / (l.length : ℚ)) := by
  have h0 : l.length ≠ 0 := fun hl => h (List.length_eq_zero.mp hl)
  simp only [seriesMean, skipna_nan_cons_num, List.length_map]
  rw [if_neg h0, fpSumList_map_num, fpDiv_num_num,
    if_neg (by exact_mod_cast h0 : ((l.length : ℚ)) ≠ 0)]

/-- With nonzero previous closes, the float return quotients agree with the
exact rational formula, pair by pair. -/
theorem zipWith_pct_eq (as : List ℚ) : ∀ bs : List ℚ, (∀ a ∈ as, a ≠ 0) →
    List.zipWith (fun prev cur => fpDiv (FP.num (cur - prev)) (FP.num prev)) as bs =
      (List.zipWith (fun prev cur => (cur - prev) / prev) as bs).map FP.num := by
  induction as with
  | nil => intro bs _; simp
  | cons a t ih =>
      intro bs h
      cases bs with
      | nil => simp
      | cons b u =>
          have ha : a ≠ 0 := h a (List.mem_cons_self a t)
          rw [List.zipWith_cons_cons, List.zipWith_cons_cons, List.map_cons,
            ih u (fun x hx => h x (List.mem_cons_of_mem a hx))]
          congr 1
          rw [fpDiv_num_num, if_neg ha]

/-- On a nonempty series of nonzero closes, `pct_change` is a NaN followed
by the exact daily-return formula at every index. -/
theorem pctChange_eq (closes : List ℚ) (hne : closes ≠ [])
    (h : ∀ c ∈ closes, c ≠ 0) :
    pctChange closes = FP.nan :: (specDailyReturns closes).map FP.num := by
  obtain ⟨c, l, rfl⟩ := List.exists_cons_of_ne_nil hne
  rw [pctChange, specDailyReturns, zipWith_pct_eq (c :: l) (c :: l).tail h]

/-- `pct_change` of a constant nonzero series is a NaN followed by zeros. -/
theorem pctChange_replicate (n : ℕ) (c : ℚ) (hn : 1 ≤ n) (hc : c ≠ 0) :
    pctChange (List.replicate n c) = FP.nan :: List.replicate (n - 1) (FP.num 0) := by
  obtain ⟨k, rfl⟩ : ∃ k, n = k + 1 := ⟨n - 1, by omega⟩
  rw [List.replicate_succ, pctChange]
  congr 1
  rw [List.tail_cons, ← List.replicate_succ, List.zipWith_replicate]
  have hval : fpDiv (FP.num (c - c)) (FP.num c) = FP.num 0 := by
    rw [fpDiv_num_num, if_neg hc, sub_self, zero_div]
  rw [hval]
  congr 1
  omega

/-! ## Rolling means -/

/-- A rolling mean has one entry per input bar. -/
theorem length_rollingMean (w : ℕ) (xs : List ℚ) :
    (rollingMean w xs).length = xs.length := by
  simp [rollingMean]

/-- The rolling-mean entry at a valid index: NaN while the window is not
yet full, else the mean over the trailing window. -/
theorem rollingMean_getElem? (w : ℕ) (xs : List ℚ) (i : ℕ) (hi : i < xs.length) :
    (rollingMean w xs)[i]? =
      some (if i + 1 < w then FP.nan
        else FP.num ((windowSlice w i xs).sum / ((windowSlice w i xs).length : ℚ))) := by
  simp [rollingMean, List.getElem?_map, List.getElem?_range hi]

/-- Once the window is full, its contents are the `w` closes ending at `i`. -/
theorem windowSlice_eq_drop_take (w i : ℕ) (xs : List ℚ) (hw : w ≤ i + 1) :
    windowSlice w i xs = (xs.drop (i + 1 - w)).take w := by
  rw [windowSlice, List.drop_take]
  congr 1
  omega

/-- The surfaced (last) rolling-mean value of a nonempty series. -/
theorem rollingMean_ilocLast (w : ℕ) (xs : List ℚ) (h : xs ≠ []) :
    ilocLast (rollingMean w xs) =
      if xs.length < w then FP.nan
      else FP.num ((windowSlice w (xs.length - 1) xs).sum /
        ((windowSlice w (xs.length - 1) xs).length : ℚ)) := by
  have hlen : 0 < xs.length := List.length_pos.mpr h
  rw [ilocLast, List.getLast?_eq_getElem?, length_rollingMean,
    rollingMean_getElem? w xs (xs.length - 1) (by omega)]
  have h2 : xs.length - 1 + 1 = xs.length := by omega
  rw [Option.getD_some, h2]

/-- A nonempty series passes the empty-data guard. -/
theorem metricsForSeries_of_ne_nil (closes : List ℚ) (h : closes ≠ []) :
    metricsForSeries closes = some (computeMetrics closes) := by
  obtain ⟨c, l, rfl⟩ := List.exists_cons_of_ne_nil h
  simp [metricsForSeries]

/-! ## Arithmetic-progression sums -/

/-- Sum of an arithmetic progression read off `List.range`. -/
theorem sum_map_linear (n : ℕ) (a d : ℚ) :
    ((List.range n).map (fun i : ℕ => a + d * (i : ℚ))).sum =
      n * a + d * (n * ((n : ℚ) - 1) / 2) := by
  induction n with
  | zero => norm_num
  | succ k ih =>
      rw [List.range_succ, List.map_append, List.sum_append, ih]
      simp only [List.map_cons, List.map_nil, List.sum_cons, List.sum_nil]
      push_cast
      ring

/-- The full trailing window of a linear close series is again an
arithmetic progression, shifted to start at `close[N-w]`. -/
theorem linClose_windowSlice (N w : ℕ) (a d : ℚ) (hw : 0 < w) (hwN : w ≤ N) :
    windowSlice w (N - 1) (linClose N a d) =
      (List.range w).map (fun j : ℕ => (a + d * ((N : ℚ) - (w : ℚ))) + d * (j : ℚ)) := by
  have hN1 : N - 1 + 1 = N := by omega
  have hlen : (linClose N a d).length = N := by simp [linClose]
  have hsplit : List.range N = List.range (N - w) ++
      (List.range w).map (fun x => (N - w) + x) := by
    conv_lhs => rw [show N = (N - w) + w by omega]
    exact List.range_add (N - w) w
  have hdl := List.drop_left (List.range (N - w))
    ((List.range w).map (fun x => (N - w) + x))
  rw [List.length_range] at hdl
  rw [windowSlice, hN1, List.take_of_length_le (le_of_eq hlen), linClose,
    ← List.map_drop, hsplit, hdl, List.map_map]
  apply List.map_congr_left
  intro j hj
  simp only [Function.comp]
  push_cast [Nat.cast_sub hwN]
  ring

/-! ## The claims -/

/-- C1: for every non-empty bar sequence, the trend reported by
`calculate_metrics` is "Bullish" if the last ma50 value is strictly greater
than the last ma200 value, and "Bearish" otherwise (including equality; a
NaN moving average is never strictly greater, so it also falls to
"Bearish"). -/
theorem claim_C1 (closes : List ℚ) (h : closes ≠ []) :
    ∃ m, metricsForSeries closes = some m ∧
      m.trend = (if fpGt m.ma50 m.ma200 then "Bullish" else "Bearish") ∧
      (∀ a b : ℚ, m.ma50 = FP.num a → m.ma200 = FP.num b →
        (m.trend = "Bullish" ↔ b < a)) := by
  obtain ⟨c, l, rfl⟩ := List.exists_cons_of_ne_nil h
  refine ⟨computeMetrics (c :: l), by simp [metricsForSeries], rfl, ?_⟩
  intro a b ha hb
  show (if fpGt (computeMetrics (c :: l)).ma50 (computeMetrics (c :: l)).ma200
    then "Bullish" else "Bearish") = "Bullish" ↔ b < a
  rw [ha, hb, fpGt_num_num]
  rcases lt_or_le b a with hab | hab
  · simp [hab]
  · simp [hab, not_lt.mpr hab]

/-- C1 witness: the trend characterisation at the one-bar series `[3]`. -/
theorem claim_C1_witness :
    ∃ m, metricsForSeries [(3:ℚ)] = some m ∧
      m.trend = (if fpGt m.ma50 m.ma200 then "Bullish" else "Bearish") ∧
      (∀ a b : ℚ, m.ma50 = FP.num a → m.ma200 = FP.num b →
        (m.trend = "Bullish" ↔ b < a)) :=
  claim_C1 [(3:ℚ)] (by simp)

/-- C2: the recommendation chain is a pure function of (trend, Sharpe
ratio) realising the decision table: Bullish with ratio above 1 buys,
Bullish otherwise holds/watches, Bearish with ratio above 0.5 holds with
caution, Bearish otherwise sells/avoids. -/
theorem claim_C2 (s : ℚ) :
    recommend "Bullish" (FP.num s) =
      (if 1 < s then "Consider Buying: Positive trend with good risk-adjusted returns"
       else "Hold/Watch: Positive trend but lower risk-adjusted returns") ∧
    recommend "Bearish" (FP.num s) =
      (if 1/2 < s then "Hold with Caution: Negative trend but still some positive risk-adjusted returns"
       else "Consider Selling/Avoiding: Negative trend with poor risk-adjusted returns") := by
  constructor
  · rcases lt_or_le 1 s with h | h
    · rw [if_pos h]
      simp [recommend, fpGt, h]
    · rw [if_neg (not_lt.mpr h)]
      simp [recommend, fpGt, fpLe, h, not_lt.mpr h]
  · rcases lt_or_le (1/2 : ℚ) s with h | h
    · have h2 : (2⁻¹ : ℚ) < s := by rwa [one_div] at h
      rw [if_pos h]
      simp [recommend, fpGt, fpLe, h2]
    · have h2 : s ≤ (2⁻¹ : ℚ) := by rwa [one_div] at h
      rw [if_neg (not_lt.mpr h)]
      simp [recommend, fpGt, fpLe, h2, not_lt.mpr h2]

/-- C3: on a bar sequence of length N ≥ 2 with positive closes, pct_change
has one entry per bar, exactly N−1 of them are actual (non-NaN) returns,
index 0 has no return, the return at index i ≥ 1 is
(close[i] − close[i−1]) / close[i−1], and avg_daily_return is the
arithmetic mean of those N−1 returns. -/
theorem claim_C3 (closes : List ℚ) (i : ℕ) (hN : 2 ≤ closes.length)
    (hpos : ∀ c ∈ closes, 0 < c) (h1 : 1 ≤ i) (hi : i < closes.length) :
    (pctChange closes).length = closes.length ∧
    (skipna (pctChange closes)).length = closes.length - 1 ∧
    (pctChange closes)[0]? = some FP.nan ∧
    (pctChange closes)[i]? =
      some (FP.num ((closes.get ⟨i, hi⟩ - closes.get ⟨i - 1, by omega⟩) /
        closes.get ⟨i - 1, by omega⟩)) ∧
    Option.map SeriesMetrics.avg_daily_return (metricsForSeries closes) =
      some (FP.num ((specDailyReturns closes).sum / ((closes.length - 1 : ℕ) : ℚ))) := by
  have hne : closes ≠ [] := by
    intro hnil
    rw [hnil] at hN
    simp at hN
  have hz : ∀ c ∈ closes, c ≠ 0 := fun c hc => ne_of_gt (hpos c hc)
  have hp := pctChange_eq closes hne hz
  have hlq : (specDailyReturns closes).length = closes.length - 1 := by
    rw [specDailyReturns, List.length_zipWith, List.length_tail]
    omega
  have hspec_ne : specDailyReturns closes ≠ [] := by
    intro hnil
    rw [hnil] at hlq
    simp at hlq
    omega
  refine ⟨?_, ?_, ?_, ?_, ?_⟩
  · rw [hp]
    simp only [List.length_cons, List.length_map, hlq]
    omega
  · rw [hp, skipna_nan_cons_num]
    simp only [List.length_map, hlq]
  · rw [hp, List.getElem?_cons_zero]
  · obtain ⟨j, rfl⟩ : ∃ j, i = j + 1 := ⟨i - 1, by omega⟩
    have hj : j < (specDailyReturns closes).length := by omega
    rw [hp, List.getElem?_cons_succ, List.getElem?_map,
      List.getElem?_eq_getElem hj, Option.map_some']
    congr 1
    simp [specDailyReturns, List.getElem_zipWith, List.getElem_tail]
  · rw [metricsForSeries_of_ne_nil closes hne, Option.map_some']
    refine congrArg some ?_
    show seriesMean (pctChange closes) = _
    rw [hp, seriesMean_nan_cons_num _ hspec_ne, hlq]

/-- C3 witness: the daily-return shape at the two-bar series `[1, 2]`,
index 1. -/
theorem claim_C3_witness :
    (pctChange [(1:ℚ), 2]).length = [(1:ℚ), 2].length ∧
    (skipna (pctChange [(1:ℚ), 2])).length = [(1:ℚ), 2].length - 1 ∧
    (pctChange [(1:ℚ), 2])[0]? = some FP.nan ∧
    (pctChange [(1:ℚ), 2])[1]? =
      some (FP.num (([(1:ℚ), 2].get ⟨1, by decide⟩ - [(1:ℚ), 2].get ⟨1 - 1, by decide⟩) /
        [(1:ℚ), 2].get ⟨1 - 1, by decide⟩)) ∧
    Option.map SeriesMetrics.avg_daily_return (metricsForSeries [(1:ℚ), 2]) =
      some (FP.num ((specDailyReturns [(1:ℚ), 2]).sum /
        (([(1:ℚ), 2].length - 1 : ℕ) : ℚ))) :=
  claim_C3 [(1:ℚ), 2] 1 (by decide) (by decide) (by decide) (by decide)

/-- C4: whenever avg_daily_return is a finite value q, annualized_return is
exactly q × 252. -/
theorem claim_C4 (closes : List ℚ) (q : ℚ)
    (h : Option.map SeriesMetrics.avg_daily_return (metricsForSeries closes) =
      some (FP.num q)) :
    Option.map SeriesMetrics.annualized_return (metricsForSeries closes) =
      some (FP.num (q * 252)) := by
  cases closes with
  | nil => simp [metricsForSeries] at h
  | cons c l =>
      simp [metricsForSeries, computeMetrics] at h ⊢
      rw [h]
      rfl

/-- C4 witness: on `[1, 2]` the average daily return is 1 and the
annualized return is 1 × 252. -/
theorem claim_C4_witness :
    Option.map SeriesMetrics.annualized_return (metricsForSeries [(1:ℚ), 2]) =
      some (FP.num (1 * 252)) :=
  claim_C4 [(1:ℚ), 2] 1 (by
    norm_num [metricsForSeries, computeMetrics, pctChange, seriesMean, skipna,
      FP.isNaN, fpAdd, fpDiv, fpSumList])

/-- C5: a ticker whose stored frame is empty yields the no-data signal
(`None`) from calculate_metrics, hence no report, and batch processing of
the remaining tickers is exactly what it would be without that ticker. -/
theorem claim_C5 (data : List (String × List ℚ)) (t : String) (rest : List String)
    (h : List.lookup t data = some []) :
    calculate_metrics data t = none ∧ generate_report data t = none ∧
    processBatch data (t :: rest) = (t, none) :: processBatch data rest := by
  have hc : calculate_metrics data t = none := by
    unfold calculate_metrics
    rw [h]
    rfl
  have hg : generate_report data t = none := by
    unfold generate_report
    rw [hc]
  exact ⟨hc, hg, by simp [processBatch, hg]⟩

/-- C5 witness: ticker "A" holds an empty frame, ticker "B" is processed
unaffected. -/
theorem claim_C5_witness :
    calculate_metrics [("A", []), ("B", [1, 2])] "A" = none ∧
    generate_report [("A", []), ("B", [1, 2])] "A" = none ∧
    processBatch [("A", []), ("B", [1, 2])] ("A" :: ["B"]) =
      ("A", none) :: processBatch [("A", []), ("B", [1, 2])] ["B"] :=
  claim_C5 _ _ _ (by rfl)

/-- C6: the rolling mean at index i is NaN (undefined) while i + 1 < w,
and the mean of the trailing w-window of closes once i + 1 ≥ w; in
particular a series of exactly 49 bars surfaces ma50 as NaN, never a
short-window mean. -/
theorem claim_C6 (w : ℕ) (xs ys : List ℚ) (i : ℕ)
    (hi : i < xs.length) (hys : ys.length = 49) :
    (rollingMean w xs)[i]? =
      some (if i + 1 < w then FP.nan
        else FP.num (((xs.drop (i + 1 - w)).take w).sum / (w : ℚ))) ∧
    Option.map SeriesMetrics.ma50 (metricsForSeries ys) = some FP.nan := by
  constructor
  · rw [rollingMean_getElem? w xs i hi]
    congr 1
    by_cases hc : i + 1 < w
    · simp [hc]
    · have hw2 : w ≤ i + 1 := by omega
      have hlen : ((xs.drop (i + 1 - w)).take w).length = w := by
        simp [List.length_take, List.length_drop]
        omega
      rw [if_neg hc, if_neg hc, windowSlice_eq_drop_take w i xs hw2, hlen]
  · have hne : ys ≠ [] := by
      intro hnil
      rw [hnil] at hys
      simp at hys
    obtain ⟨c, l, rfl⟩ := List.exists_cons_of_ne_nil hne
    have hma : ilocLast (rollingMean 50 (c :: l)) = FP.nan := by
      rw [rollingMean_ilocLast 50 (c :: l) (by simp), if_pos (by omega)]
    simp [metricsForSeries]
    exact hma

/-- C6 witness: window 50 at index 0 of `[1, 2]`, and the 49-bar constant
series, whose ma50 is NaN. -/
theorem claim_C6_witness :
    (rollingMean 50 [(1:ℚ), 2])[0]? =
      some (if 0 + 1 < 50 then FP.nan
        else FP.num ((([(1:ℚ), 2].drop (0 + 1 - 50)).take 50).sum / (50 : ℚ))) ∧
    Option.map SeriesMetrics.ma50 (metricsForSeries (List.replicate 49 1)) =
      some FP.nan :=
  claim_C6 50 [1, 2] (List.replicate 49 1) 0 (by decide) (by simp)

/-- C7 counterexample: the constant two-bar series `[1, 1]` refutes the
claim as stated: its volatility is NaN (pandas sample std of a single
return), not 0, and the Sharpe ratio is the silently propagated NaN, not
an explicit undefined-Sharpe signal. -/
theorem claim_C7_counterexample :
    Option.map SeriesMetrics.volatility (metricsForSeries [(1:ℚ), 1]) = some FP.nan ∧
    Option.map SeriesMetrics.volatility (metricsForSeries [(1:ℚ), 1]) ≠
      some (FP.num 0) ∧
    Option.map SeriesMetrics.sharpe_ratio (metricsForSeries [(1:ℚ), 1]) =
      some FP.nan := by
  have h1 : metricsForSeries [(1:ℚ), 1] =
      some { avg_daily_return := FP.num 0, annualized_return := FP.num 0,
             volatility := FP.nan, sharpe_ratio := FP.nan,
             current_price := FP.num 1, ma50 := FP.nan, ma200 := FP.nan,
             trend := "Bearish" } := by
    norm_num [metricsForSeries, computeMetrics, pctChange, seriesMean, seriesStd,
      skipna, FP.isNaN, fpAdd, fpSub, fpNeg, fpMul, fpDiv, fpSqrt, ratSqrt,
      rollingMean, windowSlice, ilocLast, ilocLastQ, fpGt, fpSumList,
      List.range_succ]
  rw [h1]
  simp

/-- C7 (amended): on a constant positive close series of length ≥ 3, every
daily return is 0 and volatility is exactly 0, and the Sharpe ratio is the
silently propagated NaN of the 0/0 division — the engine has no explicit
undefined-Sharpe state.  (Length 2 is excluded: there the sample standard
deviation of the single return, hence the volatility itself, is already
NaN.) -/
theorem claim_C7 (n : ℕ) (c : ℚ) (hn : 3 ≤ n) (hc : 0 < c) :
    ∃ m, metricsForSeries (List.replicate n c) = some m ∧
      skipna (pctChange (List.replicate n c)) = List.replicate (n - 1) (FP.num 0) ∧
      m.volatility = FP.num 0 ∧ SeriesMetrics.sharpe_ratio m = FP.nan := by
  have hcz : c ≠ 0 := ne_of_gt hc
  have hne : List.replicate n c ≠ [] := by
    apply List.length_pos.mp
    simp
    omega
  have hL := pctChange_replicate n c (by omega) hcz
  have hrep0 : List.replicate (n - 1) (FP.num 0) =
      (List.replicate (n - 1) (0:ℚ)).map FP.num := by
    simp [List.map_replicate]
  have hskip : skipna (pctChange (List.replicate n c)) =
      List.replicate (n - 1) (FP.num 0) := by
    rw [hL, hrep0, skipna_nan_cons_num]
  have hmean : seriesMean (pctChange (List.replicate n c)) = FP.num 0 := by
    rw [hL, hrep0, seriesMean_nan_cons_num _ (by simp; omega)]
    simp [List.sum_replicate]
  have hstd : seriesStd (pctChange (List.replicate n c)) = FP.num 0 := by
    simp only [seriesStd, hskip, List.length_replicate]
    rw [if_neg (by omega), hmean, List.map_replicate]
    have h00 : fpMul (fpSub (FP.num 0) (FP.num 0)) (fpSub (FP.num 0) (FP.num 0)) =
        FP.num 0 := by
      rw [fpSub_num_num, fpMul_num_num]
      norm_num
    rw [h00, fpSumList_replicate_zero, fpDiv_num_num,
      if_neg (by
        have h3 : n - 1 - 1 ≠ 0 := by omega
        exact_mod_cast h3), zero_div]
    rw [fpSqrt]
    norm_num [ratSqrt]
  refine ⟨computeMetrics (List.replicate n c),
    metricsForSeries_of_ne_nil _ hne, hskip, ?_, ?_⟩
  · show fpMul (seriesStd (pctChange (List.replicate n c))) (FP.num (ratSqrt 252)) =
      FP.num 0
    rw [hstd, fpMul_num_num, zero_mul]
  · show fpDiv
      (fpMul (seriesMean (pctChange (List.replicate n c))) (FP.num 252))
      (fpMul (seriesStd (pctChange (List.replicate n c))) (FP.num (ratSqrt 252))) =
      FP.nan
    rw [hmean, hstd, fpMul_num_num, fpMul_num_num, zero_mul, zero_mul,
      fpDiv_num_num]
    simp

/-- C7 witness: the constant series of three bars at close 1. -/
theorem claim_C7_witness :
    ∃ m, metricsForSeries (List.replicate 3 (1:ℚ)) = some m ∧
      skipna (pctChange (List.replicate 3 (1:ℚ))) =
        List.replicate (3 - 1) (FP.num 0) ∧
      m.volatility = FP.num 0 ∧ SeriesMetrics.sharpe_ratio m = FP.nan :=
  claim_C7 3 1 (by norm_num) (by norm_num)

/-- C8 counterexample: the one-bar series `[1]` has both moving averages
undefined (NaN), yet the engine reports the Bullish/Bearish classification
"Bearish" — it does not signal a "trend undetermined" state. -/
theorem claim_C8_counterexample :
    Option.map SeriesMetrics.ma50 (metricsForSeries [(1:ℚ)]) = some FP.nan ∧
    Option.map SeriesMetrics.ma200 (metricsForSeries [(1:ℚ)]) = some FP.nan ∧
    Option.map SeriesMetrics.trend (metricsForSeries [(1:ℚ)]) = some "Bearish" ∧
    Option.map SeriesMetrics.trend (metricsForSeries [(1:ℚ)]) ≠
      some "trend undetermined" := by
  have h1 : metricsForSeries [(1:ℚ)] =
      some { avg_daily_return := FP.nan, annualized_return := FP.nan,
             volatility := FP.nan, sharpe_ratio := FP.nan,
             current_price := FP.num 1, ma50 := FP.nan, ma200 := FP.nan,
             trend := "Bearish" } := by
    norm_num [metricsForSeries, computeMetrics, pctChange, seriesMean, seriesStd,
      skipna, FP.isNaN, fpAdd, fpSub, fpNeg, fpMul, fpDiv, fpSqrt, ratSqrt,
      rollingMean, windowSlice, ilocLast, ilocLastQ, fpGt, fpSumList,
      List.range_succ]
  rw [h1]
  simp

/-- C8 (amended): whenever a nonempty bar sequence is shorter than 200
bars (so ma200, and possibly ma50, is NaN), the NaN comparison
`ma50 > ma200` is false and the engine silently reports trend "Bearish";
there is no explicit trend-undetermined state. -/
theorem claim_C8 (closes : List ℚ) (h : closes ≠ []) (hlen : closes.length < 200) :
    ∃ m, metricsForSeries closes = some m ∧ m.ma200 = FP.nan ∧
      m.trend = "Bearish" := by
  obtain ⟨c, l, rfl⟩ := List.exists_cons_of_ne_nil h
  have hma : ilocLast (rollingMean 200 (c :: l)) = FP.nan := by
    rw [rollingMean_ilocLast 200 (c :: l) (by simp), if_pos hlen]
  refine ⟨computeMetrics (c :: l), by simp [metricsForSeries], hma, ?_⟩
  show (if fpGt (ilocLast (rollingMean 50 (c :: l)))
      (ilocLast (rollingMean 200 (c :: l))) then "Bullish" else "Bearish") = "Bearish"
  rw [hma, fpGt_nan_right]
  simp

/-- C8 witness: the one-bar series `[5]`. -/
theorem claim_C8_witness :
    ∃ m, metricsForSeries [(5:ℚ)] = some m ∧ m.ma200 = FP.nan ∧
      m.trend = "Bearish" :=
  claim_C8 [5] (by simp) (by norm_num)

/-- C9: any monotonically increasing linear close series of at least 200
bars is classified Bullish: the trailing 50-bar mean of an increasing
arithmetic progression exceeds its trailing 200-bar mean. -/
theorem claim_C9 (N : ℕ) (a d : ℚ) (hN : 200 ≤ N) (hd : 0 < d) :
    ∃ m, metricsForSeries (linClose N a d) = some m ∧ m.trend = "Bullish" := by
  have hlen : (linClose N a d).length = N := by simp [linClose]
  have hne : linClose N a d ≠ [] := List.length_pos.mp (by rw [hlen]; omega)
  have h50n : ¬ (N < 50) := by omega
  have h200n : ¬ (N < 200) := by omega
  have key : fpGt (ilocLast (rollingMean 50 (linClose N a d)))
      (ilocLast (rollingMean 200 (linClose N a d))) = true := by
    rw [rollingMean_ilocLast 50 _ hne, rollingMean_ilocLast 200 _ hne, hlen,
      if_neg h50n, if_neg h200n,
      linClose_windowSlice N 50 a d (by norm_num) (by omega),
      linClose_windowSlice N 200 a d (by norm_num) (by omega),
      sum_map_linear, sum_map_linear, List.length_map, List.length_map,
      List.length_range, List.length_range, fpGt_num_num, decide_eq_true_eq]
    push_cast
    rw [div_lt_div_iff (by norm_num) (by norm_num)]
    ring_nf
    linarith
  have hms := metricsForSeries_of_ne_nil (linClose N a d) hne
  refine ⟨computeMetrics (linClose N a d), hms, ?_⟩
  show (if fpGt (ilocLast (rollingMean 50 (linClose N a d)))
      (ilocLast (rollingMean 200 (linClose N a d)))
    then "Bullish" else "Bearish") = "Bullish"
  rw [key]
  simp

/-- C9 witness: the linear series 0, 1, 2, ..., 199. -/
theorem claim_C9_witness :
    ∃ m, metricsForSeries (linClose 200 0 1) = some m ∧ m.trend = "Bullish" :=
  claim_C9 200 0 1 (by norm_num) (by norm_num)

/-- C10: a single-bar sequence passes the no-data guard and yields a
metrics record: current_price is the bar's close, every statistic and
moving average is NaN, and the trend falls to "Bearish" through the NaN
comparison. -/
theorem claim_C10 (c : ℚ) :
    metricsForSeries [c] =
      some { avg_daily_return := FP.nan, annualized_return := FP.nan,
             volatility := FP.nan, sharpe_ratio := FP.nan,
             current_price := FP.num c, ma50 := FP.nan, ma200 := FP.nan,
             trend := "Bearish" } := by
  simp [metricsForSeries, computeMetrics, pctChange, seriesMean, seriesStd, skipna,
    FP.isNaN, fpMul, fpDiv, rollingMean, windowSlice, ilocLast, ilocLastQ, fpGt,
    fpSumList, List.range_succ]
